import Mathlib

/-!
Verification of the dataset loader and aggregation layer of the polar-plant
EC dashboard (src/main.py).  Python strings are modelled as lists of Unicode
code points; Unicode normalization (unicodedata.normalize) is modelled
exactly on the character domain actually occurring in this program
(precomposed Hangul syllables, conjoining Hangul jamo, and ASCII), where
NFC/NFD are given by the algorithmic Hangul composition/decomposition of
UAX 15 and are the identity elsewhere.  Dataframes are modelled as tables of
rows of values; pandas read failures are modelled as Option; st.error calls
are modelled as an emitted event list.
-/

namespace EcDash

/-- A Python string, as its list of Unicode code points. -/
abbrev Str := List Nat

/-- Leading consonant jamo range U+1100 to U+1112. -/
def isJamoL (c : Nat) : Bool := 4352 ≤ c && c ≤ 4370

/-- Vowel jamo range U+1161 to U+1175. -/
def isJamoV (c : Nat) : Bool := 4449 ≤ c && c ≤ 4469

/-- Trailing consonant jamo range U+11A8 to U+11C2. -/
def isJamoT (c : Nat) : Bool := 4520 ≤ c && c ≤ 4546

/-- Precomposed Hangul syllable range U+AC00 to U+D7A3. -/
def isHangulSyl (c : Nat) : Bool := 44032 ≤ c && c < 55204

/-- A precomposed syllable with no trailing consonant (an LV syllable). -/
def isSylLV (c : Nat) : Bool := isHangulSyl c && (c - 44032) % 28 == 0

/-- Canonical decomposition of one code point: a precomposed Hangul syllable
decomposes into its two or three conjoining jamo; every other code point in
this program's character domain is unchanged. -/
def decomposeChar (c : Nat) : List Nat :=
  if isHangulSyl c then
    let si := c - 44032
    let l := 4352 + si / 588
    let v := 4449 + (si % 588) / 28
    let t := si % 28
    if t == 0 then [l, v] else [l, v, 4519 + t]
  else [c]

/-- unicodedata.normalize with form NFD, on the Hangul-and-ASCII domain. -/
def nfd (s : Str) : Str := (s.map decomposeChar).flatten

/-- unicodedata.normalize with form NFC, on the Hangul-and-ASCII domain:
canonical Hangul composition (L+V to LV, LV+T to LVT), identity elsewhere. -/
def nfc : Str → Str
  | [] => []
  | c :: cs =>
    let rest := nfc cs
    if isJamoL c then
      match rest with
      | v :: rest2 =>
        if isJamoV v then
          let lv := 44032 + ((c - 4352) * 21 + (v - 4449)) * 28
          match rest2 with
          | t :: rest3 => if isJamoT t then (lv + (t - 4519)) :: rest3 else lv :: rest2
          | [] => [lv]
        else c :: rest
      | [] => [c]
    else if isSylLV c then
      match rest with
      | t :: rest2 => if isJamoT t then (c + (t - 4519)) :: rest2 else c :: rest
      | [] => [c]
    else c :: rest

/-- The school name 송도고 as written (NFC) in src/main.py line 28. -/
def songdo : Str := [49569, 46020, 44256]

/-- The school name 하늘고 as written (NFC) in src/main.py line 29. -/
def haneul : Str := [54616, 45720, 44256]

/-- The school name 아라고 as written (NFC) in src/main.py line 30. -/
def arago : Str := [50500, 46972, 44256]

/-- The school name 동산고 as written (NFC) in src/main.py line 31. -/
def dongsan : Str := [46041, 49328, 44256]

/-- SCHOOL_EC of src/main.py lines 27-32: each school with its target EC
value, in insertion order.  Colors are presentation-only and omitted. -/
def SCHOOL_EC : List (Str × Rat) := [(songdo, 1), (haneul, 2), (arago, 4), (dongsan, 8)]

/-- SCHOOL_EC.keys() in insertion order. -/
def SCHOOLS : List Str := SCHOOL_EC.map Prod.fst

/-- The glob suffix 환경데이터.csv (NFC, as the literal on line 45). -/
def envGlobSfx : Str := [54872, 44221, 45936, 51060, 53552, 46, 99, 115, 118]

/-- The glob suffix 생육결과데이터.xlsx (NFC, as the literal on line 73). -/
def growthGlobSfx : Str :=
  [49373, 50977, 44208, 44284, 45936, 51060, 53552, 46, 120, 108, 115, 120]

/-- The column name temperature (line 149). -/
def temperatureCol : Str := [116, 101, 109, 112, 101, 114, 97, 116, 117, 114, 101]

/-- The column name humidity (line 150). -/
def humidityCol : Str := [104, 117, 109, 105, 100, 105, 116, 121]

/-- The column name 생중량(g) (NFC, line 153). -/
def freshWeightCol : Str := [49373, 51473, 47049, 40, 103, 41]

/-- A cell value of a dataframe: numeric or textual. -/
inductive Value where
  | num (q : Rat)
  | str (s : Str)
deriving DecidableEq

/-- A pandas DataFrame, as its column names and its rows of cells. -/
structure Table where
  cols : List Str
  rows : List (List Value)
deriving DecidableEq

/-- The content of a file in the data directory.  A csv file carries the
outcome of pd.read_csv on it (none when reading raises); an xlsx file
carries its sheets in document order, each with the outcome of
pd.read_excel on that sheet. -/
inductive FileData where
  | csv (parse : Option Table)
  | xlsx (sheets : List (Str × Option Table))
deriving DecidableEq

/-- A directory entry: a file name and its content. -/
structure Entry where
  name : Str
  data : FileData
deriving DecidableEq

/-- The st.error events the two loaders can emit (lines 41, 63, 76, 98). -/
inductive ErrMsg where
  | dataDirMissing
  | csvLoadFailed (name : Str)
  | growthFileNotFound
  | growthLoadFailed
deriving DecidableEq

/-- pathlib Path.stem: the file name with its final extension removed. -/
def stemOf (name : Str) : Str :=
  match name.reverse.findIdx? (fun c => c == 46) with
  | some i => if i + 1 == name.length then name else (name.reverse.drop (i + 1)).reverse
  | none => name

/-- pd.read_csv on a directory entry: the parse outcome of a csv file;
reading a non-csv file raises (none). -/
def readCsv (e : Entry) : Option Table :=
  match e.data with
  | .csv p => p
  | .xlsx _ => none

/-- The Python substring test sub in s, as contiguous-subsequence search. -/
def strIn (sub s : Str) : Bool := s.tails.any (fun tail => sub.isPrefixOf tail)

/-- The dual-normalization membership test of lines 57 and 91: the school
name matches the target string when the NFC form of the school name occurs
inside the NFC form of the target, or its NFD form occurs inside the NFD
form of the target. -/
def nameMatches (school target : Str) : Bool :=
  strIn (nfc school) (nfc target) || strIn (nfd school) (nfd target)

/-- Python dict assignment d[k] = v on an insertion-ordered association
list: an existing key keeps its position and gets the new value, a new key
is appended. -/
def dictInsert {α : Type} (k : Str) (v : α) : List (Str × α) → List (Str × α)
  | [] => [(k, v)]
  | (k2, v2) :: rest =>
    if k = k2 then (k, v) :: rest else (k2, v2) :: dictInsert k v rest

/-- Python dict read d[k], with none for a KeyError. -/
def dictLookup {α : Type} (k : Str) : List (Str × α) → Option α
  | [] => none
  | (k2, v) :: rest => if k = k2 then some v else dictLookup k rest

/-- The inner school loop of load_environment_data (lines 53-63): walk the
schools; on the first whose name matches the file stem, read the csv; on
success store it and break, on a read failure report the error and keep
scanning the remaining schools. -/
def envSchoolLoop (e : Entry) :
    List Str → List (Str × Table) → List ErrMsg → List (Str × Table) × List ErrMsg
  | [], m, errs => (m, errs)
  | school :: rest, m, errs =>
    if nameMatches school (stemOf e.name) then
      match readCsv e with
      | some t => (dictInsert school t m, errs)
      | none => envSchoolLoop e rest m (errs ++ [ErrMsg.csvLoadFailed e.name])
    else envSchoolLoop e rest m errs

/-- The outer file loop of load_environment_data (lines 47-63). -/
def envFilesLoop :
    List Entry → List (Str × Table) → List ErrMsg → List (Str × Table) × List ErrMsg
  | [], m, errs => (m, errs)
  | e :: rest, m, errs =>
    let r := envSchoolLoop e SCHOOLS m errs
    envFilesLoop rest r.1 r.2

/-- load_environment_data (lines 34-65).  The argument is the data
directory listing, or none when the directory does not exist.  The glob of
line 45 keeps the entries whose raw name ends with the NFC-written literal
suffix 환경데이터.csv; the result is the school-keyed table mapping (none
when it would be empty, line 65), together with the st.error events. -/
def load_environment_data (dataDir : Option (List Entry)) :
    Option (List (Str × Table)) × List ErrMsg :=
  match dataDir with
  | none => (none, [ErrMsg.dataDirMissing])
  | some entries =>
    let csvFiles := entries.filter (fun e => envGlobSfx.isSuffixOf e.name)
    let r := envFilesLoop csvFiles [] []
    (if r.1.isEmpty then none else some r.1, r.2)

/-- pd.ExcelFile on an entry: its sheet list, or none when opening raises. -/
def sheetsOf (e : Entry) : Option (List (Str × Option Table)) :=
  match e.data with
  | .xlsx sheets => some sheets
  | .csv _ => none

/-- The school associated to a sheet name (lines 87-94): the first school
in SCHOOL_EC order whose name matches under dual normalization. -/
def sheetSchool (sheetName : Str) : Option Str :=
  SCHOOLS.find? (fun school => nameMatches school sheetName)

/-- The sheet loop of load_growth_data (lines 83-94), run inside the single
try of line 79: a sheet with no matching school is skipped; a matching
sheet is read, and a read failure raises out of the whole loop (none). -/
def sheetsLoop :
    List (Str × Option Table) → List (Str × Table) → Option (List (Str × Table))
  | [], m => some m
  | (sname, p) :: rest, m =>
    match sheetSchool sname with
    | some school =>
      match p with
      | some t => sheetsLoop rest (dictInsert school t m)
      | none => none
    | none => sheetsLoop rest m

/-- load_growth_data (lines 67-99).  The glob of line 73 keeps entries whose
raw name ends with the NFC-written suffix 생육결과데이터.xlsx; with no such
entry a single fatal not-found error is reported (line 76); otherwise the
first such file is opened and its sheets processed, any exception inside
the try of line 79 yielding one fatal load-failed error; an empty mapping
is returned as none (line 96). -/
def load_growth_data (dataDir : Option (List Entry)) :
    Option (List (Str × Table)) × List ErrMsg :=
  let entries := dataDir.getD []
  let xlsxFiles := entries.filter (fun e => growthGlobSfx.isSuffixOf e.name)
  match xlsxFiles with
  | [] => (none, [ErrMsg.growthFileNotFound])
  | f :: _ =>
    match sheetsOf f with
    | none => (none, [ErrMsg.growthLoadFailed])
    | some sheets =>
      match sheetsLoop sheets [] with
      | none => (none, [ErrMsg.growthLoadFailed])
      | some m => (if m.isEmpty then none else some m, [])

/-- Reading a site's table out of the environment-load result, none when
the whole load failed or the site is absent.  Models env_data[school]
access guarded by the None check of line 106. -/
def envLookup (dataDir : Option (List Entry)) (s : Str) : Option Table :=
  match (load_environment_data dataDir).1 with
  | none => none
  | some m => dictLookup s m

/-- Reading a site's table out of the growth-load result. -/
def growthLookup (dataDir : Option (List Entry)) (s : Str) : Option Table :=
  match (load_growth_data dataDir).1 with
  | none => none
  | some m => dictLookup s m

/-- Column selection df[c] followed by keeping the numeric cells, as pandas
does when averaging a numeric column: the positions of column c in each
row, none when the column is absent (a KeyError). -/
def colVals (t : Table) (c : Str) : Option (List Rat) :=
  match t.cols.findIdx? (fun c2 => c2 == c) with
  | none => none
  | some i =>
    some (t.rows.filterMap (fun r =>
      match r.get? i with
      | some (Value.num q) => some q
      | _ => none))

/-- pandas Series.mean: the arithmetic mean of the values, NaN (none) on an
empty series, never an exception. -/
def seriesMean (xs : List Rat) : Option Rat :=
  match xs with
  | [] => none
  | _ => some (xs.sum / (xs.length : Rat))

/-- df[c].mean(): the outer none is a KeyError on a missing column, the
inner none is pandas NaN on an empty column. -/
def colMean (t : Table) (c : Str) : Option (Option Rat) :=
  (colVals t c).map seriesMean

/-- The defined numeric value of df[c].mean(), collapsing a KeyError and a
NaN into none. -/
def meanOfSite (t : Table) (c : Str) : Option Rat :=
  match colMean t c with
  | some (some q) => some q
  | _ => none

/-- A sum of possibly-undefined values: none as soon as one term is
undefined, as NaN propagates through the Python sum of line 149. -/
def optSum : List (Option Rat) → Option Rat
  | [] => some 0
  | none :: _ => none
  | some a :: xs =>
    match optSum xs with
    | some b => some (a + b)
    | none => none

/-- total_plants of line 148: the record counts of the growth tables
actually present, summed over the mapping values. -/
def total_plants (g : List (Str × Table)) : Nat :=
  (g.map (fun p => p.2.rows.length)).sum

/-- The global environment aggregate of lines 149-150: the per-site means
of field c over the sites present in env_data, summed and divided by the
number of present sites.  none models an undefined outcome (empty mapping,
missing column, or a NaN term). -/
def envFieldAvg (env : List (Str × Table)) (c : Str) : Option Rat :=
  match env with
  | [] => none
  | _ =>
    (optSum (env.map (fun p => meanOfSite p.2 c))).map
      (fun s => s / (env.length : Rat))

/-- avg_temp of line 149. -/
def avg_temp (env : List (Str × Table)) : Option Rat := envFieldAvg env temperatureCol

/-- avg_humidity of line 150. -/
def avg_humidity (env : List (Str × Table)) : Option Rat := envFieldAvg env humidityCol

/-- The dict comprehension of lines 153-154: walk SCHOOL_EC.keys() in
order; growth_data[school] raises a KeyError (none) on an absent site, and
a missing fresh-weight column raises as well; otherwise pair each school
with the possibly-NaN mean of its fresh weights. -/
def avgWeightsLoop (g : List (Str × Table)) : List Str → Option (List (Str × Option Rat))
  | [] => some []
  | school :: rest =>
    match dictLookup school g with
    | none => none
    | some t =>
      match colVals t freshWeightCol with
      | none => none
      | some vs => (avgWeightsLoop g rest).map (fun l => (school, seriesMean vs) :: l)

/-- avg_weights of lines 153-154. -/
def avg_weights (g : List (Str × Table)) : Option (List (Str × Option Rat)) :=
  avgWeightsLoop g SCHOOLS

/-- The Python float comparison a greater than b used inside max: any
comparison involving NaN (none) is false. -/
def pyGt : Option Rat → Option Rat → Bool
  | some a, some b => decide (b < a)
  | _, _ => false

/-- The scan of Python max with a key function: keep the current best and
replace it only when a later key value is strictly greater, so the first
maximal element wins. -/
def pyMaxGo (bk : Str) (bv : Option Rat) : List (Str × Option Rat) → Str × Option Rat
  | [] => (bk, bv)
  | (k, v) :: rest => if pyGt v bv then pyMaxGo k v rest else pyMaxGo bk bv rest

/-- Python max(d, key=d.get) over an insertion-ordered dict, none on an
empty dict (a ValueError). -/
def pyMaxKeyFn : List (Str × Option Rat) → Option (Str × Option Rat)
  | [] => none
  | (k, v) :: rest => some (pyMaxGo k v rest)

/-- optimal_school of line 155: the max of avg_weights under its own get,
undefined when the dict comprehension already raised. -/
def optimal_school (g : List (Str × Table)) : Option Str :=
  (avg_weights g).bind (fun l => (pyMaxKeyFn l).map Prod.fst)

/-- Modelled from the spec for the refinement comparison of claim C4: the
concatenation of the column-c values of all present sites, none when some
present site lacks the column. -/
def concatVals (env : List (Str × Table)) (c : Str) : Option (List Rat) :=
  match env with
  | [] => some []
  | p :: rest =>
    match colVals p.2 c, concatVals rest c with
    | some v, some vs => some (v ++ vs)
    | _, _ => none

/-- Modelled from the spec for the refinement comparison of claim C4: the
global aggregate computed by concatenating all present sites' tables before
averaging, excluding absent sites. -/
def envFieldAvgSpec (env : List (Str × Table)) (c : Str) : Option Rat :=
  (concatVals env c).bind seriesMean

/-- Modelled from the spec for claim C1: its matching rule, under which a
candidate file name matches an expected file name when the two composed
forms are equal or the two decomposed forms are equal. -/
def specEnvMatch (candidate expected : Str) : Bool :=
  (nfc candidate == nfc expected) || (nfd candidate == nfd expected)

/-- Modelled from the spec for claim C8: a record carries the tag of site s
when some cell of the record is the string s. -/
def tableTagged (s : Str) (t : Table) : Bool :=
  t.rows.all (fun r => decide (Value.str s ∈ r))

/-- The first school of SCHOOL_EC order matching a target string; the
resolver characterization built below shows each file is assigned to this
school. -/
def firstSchool (target : Str) : Option Str :=
  SCHOOLS.find? (fun school => nameMatches school target)

/-- The table a single candidate file contributes to site s: its parsed
content when it parses and s is its first matching school. -/
def envAssignFor (s : Str) (e : Entry) : Option Table :=
  match readCsv e with
  | some t => if firstSchool (stemOf e.name) = some s then some t else none
  | none => none

/-- The site-s assignment of the last contributing file of a listing;
later files override earlier ones in the loader's dict. -/
def lastEnvAssign (s : Str) : List Entry → Option Table
  | [] => none
  | e :: rest =>
    match lastEnvAssign s rest with
    | some t => some t
    | none => envAssignFor s e

/-- The error events a single candidate file contributes: one load-failure
message per school matching its stem when reading raises, none otherwise. -/
def envErrsFor (e : Entry) : List ErrMsg :=
  match readCsv e with
  | some _ => []
  | none =>
    (SCHOOLS.filter (fun s => nameMatches s (stemOf e.name))).map
      (fun _ => ErrMsg.csvLoadFailed e.name)

/-- All error events of a candidate listing, in file order. -/
def envErrs : List Entry → List ErrMsg
  | [] => []
  | e :: rest => envErrsFor e ++ envErrs rest

/-- The last sheet of a document that is associated to site s, i.e. whose
first matching school is s. -/
def lastMatchingSheet (s : Str) : List (Str × Option Table) → Option (Str × Option Table)
  | [] => none
  | p :: rest =>
    match lastMatchingSheet s rest with
    | some q => some q
    | none => if sheetSchool p.1 = some s then some p else none

/-- A one-record growth table with the given fresh weight. -/
def gTable (q : Rat) : Table := ⟨[freshWeightCol], [[Value.num q]]⟩

/-- An environment table holding the given temperature readings. -/
def tTable (qs : List Rat) : Table := ⟨[temperatureCol], qs.map (fun q => [Value.num q])⟩

/-- A growth mapping covering only three of the four configured sites. -/
def gPartial : List (Str × Table) := [(songdo, gTable 2), (haneul, gTable 3), (arago, gTable 1)]

/-- A growth mapping covering one configured site. -/
def gSingle : List (Str × Table) := [(songdo, gTable 2)]

/-- The full growth mapping of the spec's worked example: mean fresh
weights 2.1, 3.4, 2.8 and 1.9 grams. -/
def gFull : List (Str × Table) :=
  [(songdo, gTable (21 / 10)), (haneul, gTable (17 / 5)),
   (arago, gTable (14 / 5)), (dongsan, gTable (19 / 10))]

/-- The mean fresh weights of gFull as a function of the site. -/
def wFull (s : Str) : Rat :=
  if s = songdo then 21 / 10
  else if s = haneul then 17 / 5
  else if s = arago then 14 / 5
  else 19 / 10

/-- A directory whose only file is the environment file of 송도고 with its
name entirely in decomposed (NFD) form, as a macOS volume stores it. -/
def dirNfdName : List Entry :=
  [⟨nfd (songdo ++ envGlobSfx), .csv (some (tTable [1]))⟩]

/-- A directory whose only file mixes normalization forms: the school part
of the name is decomposed, the suffix part composed. -/
def dirMixedName : List Entry :=
  [⟨nfd songdo ++ envGlobSfx, .csv (some (tTable [1]))⟩]

/-- A directory holding only the 하늘고 environment file. -/
def dirHaneulOnly : List Entry :=
  [⟨haneul ++ envGlobSfx, .csv (some (tTable [4, 4, 4]))⟩]

/-- A growth document whose first sheet parses and whose second sheet
raises on parsing. -/
def dirSheetCrash : List Entry :=
  [⟨growthGlobSfx, .xlsx [(songdo, some (gTable 2)), (haneul, none)]⟩]

/-- A growth document with two sheets both associated to 송도고: the bare
school name and the school name followed by a blank and a digit. -/
def dirTwoSheets : List Entry :=
  [⟨growthGlobSfx, .xlsx [(songdo, some (gTable 2)), (songdo ++ [32, 50], some (gTable 5))]⟩]

/-- A growth document holding a sheet for every configured site. -/
def dirFullGrowth : List Entry :=
  [⟨growthGlobSfx,
    .xlsx [(songdo, some (gTable (21 / 10))), (haneul, some (gTable (17 / 5))),
           (arago, some (gTable (14 / 5))), (dongsan, some (gTable (19 / 10)))]⟩]

/-- An environment mapping with sites of unequal record counts: one
reading of 0 degrees against three readings of 4 degrees. -/
def envUnequal : List (Str × Table) := [(songdo, tTable [0]), (haneul, tTable [4, 4, 4])]

/-- An environment mapping whose sites have equally many records. -/
def envEqual : List (Str × Table) := [(songdo, tTable [1, 3]), (haneul, tTable [2, 6])]

/-- A growth table with its column header but no record at all. -/
def emptyGTable : Table := ⟨[freshWeightCol], []⟩
theorem dictLookup_insert_self {α : Type} (k : Str) (v : α) (m : List (Str × α)) :
    dictLookup k (dictInsert k v m) = some v := by
  induction m with
  | nil => simp [dictInsert, dictLookup]
  | cons p rest ih =>
    obtain ⟨k2, v2⟩ := p
    by_cases h : k = k2
    · simp [dictInsert, dictLookup, h]
    · simp [dictInsert, dictLookup, h, ih]

theorem dictLookup_insert_other {α : Type} (k k2 : Str) (v : α) (m : List (Str × α))
    (h : k ≠ k2) : dictLookup k (dictInsert k2 v m) = dictLookup k m := by
  induction m with
  | nil => simp [dictInsert, dictLookup, h]
  | cons p rest ih =>
    obtain ⟨k3, v3⟩ := p
    by_cases h2 : k2 = k3
    · subst h2
      simp [dictInsert, dictLookup, h, ih]
    · by_cases h3 : k = k3 <;> simp [dictInsert, dictLookup, h, h2, h3, ih]

theorem envSchoolLoop_fst (e : Entry) :
    ∀ (schools : List Str) (m : List (Str × Table)) (errs : List ErrMsg),
    (envSchoolLoop e schools m errs).1 =
      match readCsv e, schools.find? (fun s => nameMatches s (stemOf e.name)) with
      | some t, some s => dictInsert s t m
      | _, _ => m := by
  intro schools
  induction schools with
  | nil =>
    intro m errs
    cases h : readCsv e <;> simp [envSchoolLoop]
  | cons school rest ih =>
    intro m errs
    by_cases hm : nameMatches school (stemOf e.name)
    · cases h : readCsv e <;> simp [envSchoolLoop, hm, h, List.find?, ih]
    · cases h : readCsv e <;>
        simp [envSchoolLoop, hm, h, List.find?, ih m errs]

theorem envSchoolLoop_snd (e : Entry) :
    ∀ (schools : List Str) (m : List (Str × Table)) (errs : List ErrMsg),
    (envSchoolLoop e schools m errs).2 =
      match readCsv e with
      | some _ => errs
      | none =>
        errs ++ (schools.filter (fun s => nameMatches s (stemOf e.name))).map
          (fun _ => ErrMsg.csvLoadFailed e.name) := by
  intro schools
  induction schools with
  | nil =>
    intro m errs
    cases h : readCsv e <;> simp [envSchoolLoop]
  | cons school rest ih =>
    intro m errs
    by_cases hm : nameMatches school (stemOf e.name)
    · cases h : readCsv e <;> simp [envSchoolLoop, hm, h, List.filter, ih]
    · cases h : readCsv e <;> simp [envSchoolLoop, hm, h, List.filter, ih m errs]

theorem envFilesLoop_lookup (s : Str) :
    ∀ (files : List Entry) (m : List (Str × Table)) (errs : List ErrMsg),
    dictLookup s ((envFilesLoop files m errs).1) =
      match lastEnvAssign s files with
      | some t => some t
      | none => dictLookup s m := by
  intro files
  induction files with
  | nil => intro m errs; simp [envFilesLoop, lastEnvAssign]
  | cons e rest ih =>
    intro m errs
    show dictLookup s ((envFilesLoop rest (envSchoolLoop e SCHOOLS m errs).1
      (envSchoolLoop e SCHOOLS m errs).2).1) = _
    rw [ih]
    cases hlast : lastEnvAssign s rest with
    | some t => simp [lastEnvAssign, hlast]
    | none =>
      simp only [lastEnvAssign, hlast]
      rw [envSchoolLoop_fst]
      cases hr : readCsv e with
      | none => simp [envAssignFor, hr]
      | some t =>
        cases hf : SCHOOLS.find? (fun sc => nameMatches sc (stemOf e.name)) with
        | none => simp [envAssignFor, hr, firstSchool, hf]
        | some s2 =>
          by_cases hs : s = s2
          · subst hs
            simp [envAssignFor, hr, firstSchool, hf, dictLookup_insert_self]
          · have hss : s2 ≠ s := fun hh => hs hh.symm
            simp [envAssignFor, hr, firstSchool, hf, hss,
              dictLookup_insert_other s s2 t m hs]

theorem envFilesLoop_errs :
    ∀ (files : List Entry) (m : List (Str × Table)) (errs : List ErrMsg),
    (envFilesLoop files m errs).2 = errs ++ envErrs files := by
  intro files
  induction files with
  | nil => intro m errs; simp [envFilesLoop, envErrs]
  | cons e rest ih =>
    intro m errs
    show (envFilesLoop rest (envSchoolLoop e SCHOOLS m errs).1
      (envSchoolLoop e SCHOOLS m errs).2).2 = _
    rw [ih, envSchoolLoop_snd]
    cases hr : readCsv e with
    | some t => simp [envErrs, envErrsFor, hr]
    | none => simp [envErrs, envErrsFor, hr]

theorem envLookup_eq_fold (L : List Entry) (s : Str) :
    envLookup (some L) s =
      dictLookup s ((envFilesLoop (L.filter (fun e => envGlobSfx.isSuffixOf e.name)) [] []).1) := by
  unfold envLookup load_environment_data
  simp only
  by_cases he : (envFilesLoop (L.filter (fun e => envGlobSfx.isSuffixOf e.name)) [] []).1.isEmpty
  · have hnil := List.isEmpty_iff.mp he
    simp [he, hnil, dictLookup]
  · simp [he]

theorem envLookup_char (L : List Entry) (s : Str) :
    envLookup (some L) s =
      lastEnvAssign s (L.filter (fun e => envGlobSfx.isSuffixOf e.name)) := by
  rw [envLookup_eq_fold, envFilesLoop_lookup]
  cases hlast : lastEnvAssign s (L.filter (fun e => envGlobSfx.isSuffixOf e.name)) with
  | some t => rfl
  | none => simp [dictLookup]

theorem load_env_errs (L : List Entry) :
    (load_environment_data (some L)).2 =
      envErrs (L.filter (fun e => envGlobSfx.isSuffixOf e.name)) := by
  unfold load_environment_data
  simp [envFilesLoop_errs]

theorem lastEnvAssign_mem {s : Str} {t : Table} :
    ∀ {files : List Entry}, lastEnvAssign s files = some t →
      ∃ e ∈ files, readCsv e = some t := by
  intro files
  induction files with
  | nil => intro h; simp [lastEnvAssign] at h
  | cons e rest ih =>
    intro h
    cases hlast : lastEnvAssign s rest with
    | some t2 =>
      simp only [lastEnvAssign, hlast] at h
      obtain rfl : t2 = t := by injection h
      obtain ⟨e2, he2, hr⟩ := ih hlast
      exact ⟨e2, by simp [he2], hr⟩
    | none =>
      simp only [lastEnvAssign, hlast] at h
      cases hr : readCsv e with
      | none => simp [envAssignFor, hr] at h
      | some t3 =>
        simp only [envAssignFor, hr] at h
        split at h
        · exact ⟨e, by simp, hr.trans h⟩
        · exact absurd h (by simp)

theorem lastEnvAssign_none_of_no_match {s : Str} :
    ∀ {files : List Entry},
    (∀ e ∈ files, nameMatches s (stemOf e.name) = false) →
      lastEnvAssign s files = none := by
  intro files
  induction files with
  | nil => intro _; simp [lastEnvAssign]
  | cons e rest ih =>
    intro h
    have hrest := ih (fun e2 he2 => h e2 (by simp [he2]))
    simp only [lastEnvAssign, hrest]
    cases hr : readCsv e with
    | none => simp [envAssignFor, hr]
    | some t =>
      simp only [envAssignFor, hr]
      rw [if_neg]
      intro hf
      have hmt : nameMatches s (stemOf e.name) = true :=
        List.find?_some (p := fun sc => nameMatches sc (stemOf e.name)) hf
      rw [h e (by simp)] at hmt
      exact Bool.false_ne_true hmt

theorem sheetsLoop_ok :
    ∀ (sheets : List (Str × Option Table)) (m : List (Str × Table)),
    (∀ p ∈ sheets, p.2.isSome) →
    ∃ m2, sheetsLoop sheets m = some m2 ∧
      ∀ s, dictLookup s m2 =
        match lastMatchingSheet s sheets with
        | some p => p.2
        | none => dictLookup s m := by
  intro sheets
  induction sheets with
  | nil =>
    intro m _
    exact ⟨m, rfl, fun s => by simp [lastMatchingSheet]⟩
  | cons p rest ih =>
    intro m hp
    obtain ⟨sname, po⟩ := p
    cases po with
    | none =>
      have hcontra := hp (sname, none) (List.mem_cons_self _ _)
      simp at hcontra
    | some t =>
      cases hsch : sheetSchool sname with
      | none =>
        obtain ⟨m2, hm2, hlook⟩ := ih m (fun q hq => hp q (by simp [hq]))
        refine ⟨m2, by simpa [sheetsLoop, hsch] using hm2, fun s => ?_⟩
        rw [hlook s]
        cases hlast : lastMatchingSheet s rest with
        | some q => simp [lastMatchingSheet, hlast]
        | none => simp [lastMatchingSheet, hlast, hsch]
      | some school =>
        obtain ⟨m2, hm2, hlook⟩ :=
          ih (dictInsert school t m) (fun q hq => hp q (by simp [hq]))
        refine ⟨m2, by simpa [sheetsLoop, hsch] using hm2, fun s => ?_⟩
        rw [hlook s]
        cases hlast : lastMatchingSheet s rest with
        | some q => simp [lastMatchingSheet, hlast]
        | none =>
          simp only [lastMatchingSheet, hlast]
          by_cases hs : s = school
          · subst hs
            simp [hsch, dictLookup_insert_self]
          · rw [if_neg (by rw [hsch]; exact fun hh => hs (Option.some.inj hh).symm)]
            exact dictLookup_insert_other s school t m hs

theorem sheetsLoop_none_iff :
    ∀ (sheets : List (Str × Option Table)) (m : List (Str × Table)),
    sheetsLoop sheets m = none ↔
      ∃ p ∈ sheets, (sheetSchool p.1).isSome ∧ p.2 = none := by
  intro sheets
  induction sheets with
  | nil => intro m; simp [sheetsLoop]
  | cons p rest ih =>
    intro m
    obtain ⟨sname, po⟩ := p
    cases hsch : sheetSchool sname with
    | none =>
      simp only [sheetsLoop, hsch]
      rw [ih m]
      constructor
      · rintro ⟨q, hq, hqs⟩
        exact ⟨q, by simp [hq], hqs⟩
      · rintro ⟨q, hq, hqs⟩
        rcases List.mem_cons.mp hq with hq1 | hq2
        · subst hq1
          simp [hsch] at hqs
        · exact ⟨q, hq2, hqs⟩
    | some school =>
      cases po with
      | none =>
        simp only [sheetsLoop, hsch]
        constructor
        · intro _
          exact ⟨(sname, none), by simp, by simp [hsch]⟩
        · intro _; trivial
      | some t =>
        simp only [sheetsLoop, hsch]
        rw [ih (dictInsert school t m)]
        constructor
        · rintro ⟨q, hq, hqs⟩
          exact ⟨q, by simp [hq], hqs⟩
        · rintro ⟨q, hq, hqs⟩
          rcases List.mem_cons.mp hq with hq1 | hq2
          · subst hq1
            simp at hqs
          · exact ⟨q, hq2, hqs⟩

theorem sheetsLoop_mem :
    ∀ (sheets : List (Str × Option Table)) (m m2 : List (Str × Table)) (s : Str) (t : Table),
    sheetsLoop sheets m = some m2 → dictLookup s m2 = some t →
      (∃ p ∈ sheets, p.2 = some t) ∨ dictLookup s m = some t := by
  intro sheets
  induction sheets with
  | nil =>
    intro m m2 s t hloop hlook
    right
    simp only [sheetsLoop] at hloop
    injection hloop with hh
    rw [← hh] at hlook
    exact hlook
  | cons p rest ih =>
    intro m m2 s t hloop hlook
    obtain ⟨sname, po⟩ := p
    cases hsch : sheetSchool sname with
    | none =>
      simp only [sheetsLoop, hsch] at hloop
      rcases ih m m2 s t hloop hlook with ⟨q, hq, hqs⟩ | hm
      · exact Or.inl ⟨q, by simp [hq], hqs⟩
      · exact Or.inr hm
    | some school =>
      cases po with
      | none => simp [sheetsLoop, hsch] at hloop
      | some t2 =>
        simp only [sheetsLoop, hsch] at hloop
        rcases ih (dictInsert school t2 m) m2 s t hloop hlook with ⟨q, hq, hqs⟩ | hm
        · exact Or.inl ⟨q, by simp [hq], hqs⟩
        · by_cases hs : s = school
          · subst hs
            rw [dictLookup_insert_self] at hm
            exact Or.inl ⟨(sname, some t2), by simp, hm⟩
          · rw [dictLookup_insert_other s school t2 m hs] at hm
            exact Or.inr hm

theorem pyMaxGo_map (f : Str → Rat) :
    ∀ (l : List Str) (b : Str),
    ∃ s, pyMaxGo b (some (f b)) (l.map (fun x => (x, some (f x)))) = (s, some (f s)) ∧
      ∃ l1 l2, b :: l = l1 ++ s :: l2 ∧ (∀ x ∈ l1, f x < f s) ∧
        ∀ x ∈ b :: l, f x ≤ f s := by
  intro l
  induction l with
  | nil =>
    intro b
    exact ⟨b, rfl, [], [], rfl, by simp, by simp⟩
  | cons k rest ih =>
    intro b
    by_cases hgt : f b < f k
    · obtain ⟨s, hrun, l1, l2, hdec, hlt, hle⟩ := ih k
      refine ⟨s, ?_, b :: l1, l2, ?_, ?_, ?_⟩
      · simp only [List.map_cons, pyMaxGo, pyGt]
        rw [if_pos (by simpa using hgt)]
        exact hrun
      · rw [List.cons_append, ← hdec]
      · intro x hx
        rcases List.mem_cons.mp hx with rfl | hx2
        · exact lt_of_lt_of_le hgt (hle k (by simp))
        · exact hlt x hx2
      · intro x hx
        rcases List.mem_cons.mp hx with rfl | hx2
        · exact le_trans (le_of_lt hgt) (hle k (by simp))
        · exact hle x hx2
    · obtain ⟨s, hrun, l1, l2, hdec, hlt, hle⟩ := ih b
      have hstep : pyMaxGo b (some (f b)) ((k :: rest).map (fun x => (x, some (f x)))) =
          pyMaxGo b (some (f b)) (rest.map (fun x => (x, some (f x)))) := by
        simp only [List.map_cons, pyMaxGo, pyGt]
        rw [if_neg (by simpa using hgt)]
      cases l1 with
      | nil =>
        obtain ⟨rfl, rfl⟩ : b = s ∧ rest = l2 := by
          have := hdec
          simp only [List.nil_append] at this
          exact ⟨by injection this, by injection this⟩
        refine ⟨b, by rw [hstep]; exact hrun, [], k :: rest, by simp, by simp, ?_⟩
        intro x hx
        rcases List.mem_cons.mp hx with rfl | hx2
        · exact le_refl _
        · rcases List.mem_cons.mp hx2 with rfl | hx3
          · exact le_of_not_lt hgt
          · exact hle x (by simp [hx3])
      | cons b1 l1tail =>
        rw [List.cons_append] at hdec
        injection hdec with hb hrest
        subst hb
        have hbs : f b < f s := hlt b (by simp)
        refine ⟨s, by rw [hstep]; exact hrun, b :: k :: l1tail, l2, ?_, ?_, ?_⟩
        · rw [hrest]; simp
        · intro x hx
          rcases List.mem_cons.mp hx with rfl | hx2
          · exact hbs
          · rcases List.mem_cons.mp hx2 with rfl | hx3
            · exact lt_of_le_of_lt (le_of_not_lt hgt) hbs
            · exact hlt x (by simp [hx3])
        · intro x hx
          rcases List.mem_cons.mp hx with rfl | hx2
          · exact le_of_lt hbs
          · rcases List.mem_cons.mp hx2 with rfl | hx3
            · exact le_trans (le_of_not_lt hgt) (le_of_lt hbs)
            · exact hle x (by simp [hx3])

theorem avgWeightsLoop_map (g : List (Str × Table)) (f : Str → Rat) :
    ∀ l : List Str,
    (∀ s ∈ l, ∃ t, dictLookup s g = some t ∧
      colMean t freshWeightCol = some (some (f s))) →
    avgWeightsLoop g l = some (l.map (fun s => (s, some (f s)))) := by
  intro l
  induction l with
  | nil => intro _; rfl
  | cons s rest ih =>
    intro h
    obtain ⟨t, hlook, hmean⟩ := h s (by simp)
    obtain ⟨vs, hvs, hsm⟩ :
        ∃ vs, colVals t freshWeightCol = some vs ∧ seriesMean vs = some (f s) := by
      unfold colMean at hmean
      cases hcv : colVals t freshWeightCol with
      | none => rw [hcv] at hmean; simp at hmean
      | some vs =>
        rw [hcv] at hmean
        rw [show Option.map seriesMean (some vs) = some (seriesMean vs) from rfl] at hmean
        exact ⟨vs, rfl, by injection hmean⟩
    simp only [avgWeightsLoop, hlook, hvs, ih (fun x hx => h x (by simp [hx]))]
    simp [hsm]

theorem seriesMean_of_ne_nil {xs : List Rat} (h : xs ≠ []) :
    seriesMean xs = some (xs.sum / (xs.length : Rat)) := by
  cases xs with
  | nil => exact absurd rfl h
  | cons a l => rfl

theorem optSum_concat (c : Str) (k : Nat) (hk : k ≠ 0) :
    ∀ env : List (Str × Table),
    (∀ p ∈ env, ∃ vs, colVals p.2 c = some vs ∧ vs.length = k) →
    ∃ flat, concatVals env c = some flat ∧ flat.length = env.length * k ∧
      optSum (env.map (fun p => meanOfSite p.2 c)) = some (flat.sum / (k : Rat)) := by
  intro env
  induction env with
  | nil =>
    intro _
    exact ⟨[], rfl, by simp, by simp [optSum]⟩
  | cons p rest ih =>
    intro h
    obtain ⟨vs, hvs, hlen⟩ := h p (by simp)
    obtain ⟨flat2, h1, h2, h3⟩ := ih (fun q hq => h q (by simp [hq]))
    have hvs_ne : vs ≠ [] := by
      intro hh
      rw [hh] at hlen
      exact hk hlen.symm
    have hmos : meanOfSite p.2 c = some (vs.sum / (k : Rat)) := by
      unfold meanOfSite colMean
      rw [hvs]
      rw [show Option.map seriesMean (some vs) = some (seriesMean vs) from rfl]
      rw [seriesMean_of_ne_nil hvs_ne, hlen]
    refine ⟨vs ++ flat2, ?_, ?_, ?_⟩
    · simp only [concatVals, hvs, h1]
    · simp [h2, Nat.succ_mul, hlen, Nat.add_comm]
    · simp only [List.map_cons, optSum, hmos, h3]
      rw [List.sum_append, div_add_div_same]

theorem findIdx_of_mem {c : Str} {cols : List Str} (h : c ∈ cols) :
    ∃ i, cols.findIdx? (fun c2 => c2 == c) = some i := by
  cases h2 : cols.findIdx? (fun c2 => c2 == c) with
  | some i => exact ⟨i, rfl⟩
  | none =>
    have := List.findIdx?_eq_none_iff.mp h2 c h
    simp at this

theorem env_growth_sfx_disjoint (name : Str) (h : envGlobSfx.isSuffixOf name = true) :
    growthGlobSfx.isSuffixOf name = false := by
  by_contra hgb
  rw [Bool.not_eq_false] at hgb
  have h1 : envGlobSfx <:+ name := by simpa using h
  have h2 : growthGlobSfx <:+ name := by simpa using hgb
  obtain ⟨t1, ht1⟩ := h1
  obtain ⟨t2, ht2⟩ := h2
  have g1 : name.getLast? = some 118 := by
    rw [← ht1, List.getLast?_append]; rfl
  have g2 : name.getLast? = some 120 := by
    rw [← ht2, List.getLast?_append]; rfl
  rw [g1] at g2
  exact absurd (Option.some.inj g2) (by norm_num)

theorem envErrs_nil_of_ok :
    ∀ {files : List Entry}, (∀ e ∈ files, readCsv e ≠ none) → envErrs files = [] := by
  intro files
  induction files with
  | nil => intro _; rfl
  | cons e rest ih =>
    intro h
    have he := h e (by simp)
    cases hr : readCsv e with
    | none => exact absurd hr he
    | some t =>
      simp only [envErrs, envErrsFor, hr]
      exact ih (fun e2 he2 => h e2 (by simp [he2]))

theorem lastMatchingSheet_mem {s : Str} {p : Str × Option Table} :
    ∀ {sheets : List (Str × Option Table)},
    lastMatchingSheet s sheets = some p → p ∈ sheets := by
  intro sheets
  induction sheets with
  | nil => intro h; simp [lastMatchingSheet] at h
  | cons q rest ih =>
    intro h
    cases hlast : lastMatchingSheet s rest with
    | some p2 =>
      simp only [lastMatchingSheet, hlast] at h
      injection h with hh
      subst hh
      exact List.mem_cons_of_mem _ (ih hlast)
    | none =>
      simp only [lastMatchingSheet, hlast] at h
      split at h
      · injection h with hh
        subst hh
        exact List.mem_cons_self _ _
      · exact absurd h (by simp)

theorem load_growth_eq (L : List Entry) (f : Entry) (fs : List Entry)
    (sheets : List (Str × Option Table))
    (hfilter : L.filter (fun e => growthGlobSfx.isSuffixOf e.name) = f :: fs)
    (hdata : f.data = .xlsx sheets) :
    load_growth_data (some L) =
      match sheetsLoop sheets [] with
      | none => (none, [ErrMsg.growthLoadFailed])
      | some m => (if m.isEmpty then none else some m, []) := by
  unfold load_growth_data
  simp only [show (some L).getD [] = L from rfl, hfilter, sheetsOf, hdata]

theorem colMean_gTable (q : Rat) : colMean (gTable q) freshWeightCol = some (some q) := by
  unfold colMean colVals gTable
  simp [seriesMean]

/-- C1 counterexample.  The claim states a candidate is associated with a
site iff the composed forms or the decomposed forms of candidate and
expected names are equal.  The file named in the fully decomposed form of
the expected 송도고 environment-file name satisfies the claimed rule (its
NFD form equals the expected NFD form), yet the loader associates it with
no site at all: the glob of line 45 compares raw code points against the
composed-form literal, so the decomposed name is never considered. -/
theorem C1_counterexample :
    specEnvMatch (nfd (songdo ++ envGlobSfx)) (songdo ++ envGlobSfx) = true ∧
    envLookup (some dirNfdName) songdo = none ∧
    (load_environment_data (some dirNfdName)).1 = none := by decide

/-- C1 amended.  Candidates are only the files whose raw name ends with
the composed-form suffix 환경데이터.csv.  Among those, the resolver assigns
each successfully parsed candidate to the first configured site whose name
occurs as a substring of the candidate stem, the composed forms and the
decomposed forms being compared independently; the site's stored table is
that of the last such file.  In particular a candidate whose school-name
portion is decomposed but whose suffix is composed still resolves to the
correct site. -/
theorem C1_amended :
    (∀ (L : List Entry) (s : Str),
      envLookup (some L) s =
        lastEnvAssign s (L.filter (fun e => envGlobSfx.isSuffixOf e.name))) ∧
    envLookup (some dirMixedName) songdo = some (tTable [1]) :=
  ⟨fun L s => envLookup_char L s, by decide⟩

/-- C2.  The claim says every downstream aggregation over a partially
loaded collection skips absent sites and never indexes a missing key.  On
the mapping missing only 동산고, the totals over present values succeed,
but the dict comprehension of lines 153-154 walks all of SCHOOL_EC and
indexes growth_data[동산고], which raises (none); optimal-site selection
dies with it.  This contradicts the loaders' own per-site recovery design,
so the code, not the claim, is at fault. -/
theorem C2_partial_crash :
    dictLookup dongsan gPartial = none ∧
    total_plants gPartial = 3 ∧
    avg_weights gPartial = none ∧
    optimal_school gPartial = none := by decide

/-- C3 counterexample.  The claim says a parse failure on one sheet is
caught per sheet and the other sheets' tables are still returned.  On a
document whose 송도고 sheet parses and whose 하늘고 sheet raises, the
single try of line 79 catches the failure for the whole document: one
fatal error is reported and the result is empty, the successfully parsed
송도고 sheet included. -/
theorem C3_counterexample :
    sheetSchool songdo = some songdo ∧
    load_growth_data (some dirSheetCrash) = (none, [ErrMsg.growthLoadFailed]) ∧
    growthLookup (some dirSheetCrash) songdo = none := by decide

/-- C3 amended.  A parse failure on any sheet that is associated with a
site aborts the entire growth load: a single fatal load-failure error is
reported and the whole result is empty; no other sheet's table survives. -/
theorem C3_amended (L : List Entry) (f : Entry) (fs : List Entry)
    (sheets : List (Str × Option Table))
    (hfilter : L.filter (fun e => growthGlobSfx.isSuffixOf e.name) = f :: fs)
    (hdata : f.data = .xlsx sheets)
    (hfail : ∃ p ∈ sheets, (sheetSchool p.1).isSome ∧ p.2 = none) :
    load_growth_data (some L) = (none, [ErrMsg.growthLoadFailed]) := by
  rw [load_growth_eq L f fs sheets hfilter hdata,
    (sheetsLoop_none_iff sheets []).mpr hfail]

/-- Witness for C3 amended at the concrete crashing document. -/
theorem C3_witness :
    (dirSheetCrash.filter (fun e => growthGlobSfx.isSuffixOf e.name) =
      [⟨growthGlobSfx, .xlsx [(songdo, some (gTable 2)), (haneul, none)]⟩]) ∧
    load_growth_data (some dirSheetCrash) = (none, [ErrMsg.growthLoadFailed]) :=
  ⟨by decide,
   C3_amended dirSheetCrash ⟨growthGlobSfx, .xlsx [(songdo, some (gTable 2)), (haneul, none)]⟩
     [] [(songdo, some (gTable 2)), (haneul, none)] (by decide) rfl (by decide)⟩

/-- C5 counterexample.  The claim says a site with no matching candidate
gets a surfaced per-site file-not-found error.  In a directory holding
only the 하늘고 file, 송도고 has no candidate: its key is absent and the
load succeeds, but the loader emits no error whatsoever for it — the file
loop of lines 47-63 never visits a school without a file. -/
theorem C5_counterexample :
    envLookup (some dirHaneulOnly) songdo = none ∧
    envLookup (some dirHaneulOnly) haneul = some (tTable [4, 4, 4]) ∧
    (load_environment_data (some dirHaneulOnly)).2 = [] := by decide

/-- C5 amended.  A site with no matching candidate is silently omitted:
its key is excluded from the result, no error is emitted for it (when all
candidate files parse, the load emits no error at all), and every other
site's entry is determined solely by its own matching candidate files. -/
theorem C5_amended (L : List Entry) (s : Str)
    (hno : ∀ e ∈ L.filter (fun e2 => envGlobSfx.isSuffixOf e2.name),
      nameMatches s (stemOf e.name) = false) :
    envLookup (some L) s = none ∧
    ((∀ e ∈ L.filter (fun e2 => envGlobSfx.isSuffixOf e2.name), readCsv e ≠ none) →
      (load_environment_data (some L)).2 = []) ∧
    ∀ s2, s2 ≠ s →
      envLookup (some L) s2 =
        lastEnvAssign s2 (L.filter (fun e2 => envGlobSfx.isSuffixOf e2.name)) := by
  refine ⟨?_, ?_, ?_⟩
  · rw [envLookup_char]
    exact lastEnvAssign_none_of_no_match hno
  · intro hok
    rw [load_env_errs]
    exact envErrs_nil_of_ok hok
  · intro s2 _
    exact envLookup_char L s2

/-- Witness for C5 amended: 송도고 has no candidate in the directory
holding only the 하늘고 file. -/
theorem C5_witness :
    (∀ e ∈ dirHaneulOnly.filter (fun e2 => envGlobSfx.isSuffixOf e2.name),
      nameMatches songdo (stemOf e.name) = false) ∧
    envLookup (some dirHaneulOnly) songdo = none :=
  ⟨by decide, (C5_amended dirHaneulOnly songdo (by decide)).1⟩

/-- C4 counterexample.  The claim says the overall average temperature is
the average of the concatenation of the present sites' tables.  Line 149
instead averages the per-site means: with one site holding a single 0
degree reading and another holding three 4 degree readings, the code
reports 2 degrees while the concatenated average is 3 degrees. -/
theorem C4_counterexample :
    avg_temp envUnequal = some 2 ∧
    envFieldAvgSpec envUnequal temperatureCol = some 3 ∧
    avg_temp envUnequal ≠ envFieldAvgSpec envUnequal temperatureCol := by
  have h1 : avg_temp envUnequal = some 2 := by
    simp [avg_temp, envFieldAvg, envUnequal, meanOfSite, colMean, colVals, tTable, optSum,
      seriesMean, temperatureCol]
    norm_num
  have h2 : envFieldAvgSpec envUnequal temperatureCol = some 3 := by
    simp [envFieldAvgSpec, concatVals, envUnequal, colVals, tTable, seriesMean, temperatureCol]
    norm_num
  refine ⟨h1, h2, ?_⟩
  rw [h1, h2]
  intro hh
  exact absurd (Option.some.inj hh) (by norm_num)

/-- C4 amended.  The global aggregate of lines 149-150 is the unweighted
average of the per-site means over the present sites; it agrees with the
spec's concatenate-then-average value exactly in the balanced case, when
every present site contributes the same number of records. -/
theorem C4_amended (env : List (Str × Table)) (c : Str) (k : Nat) (hk : k ≠ 0)
    (hne : env ≠ [])
    (h : ∀ p ∈ env, ∃ vs, colVals p.2 c = some vs ∧ vs.length = k) :
    envFieldAvg env c = envFieldAvgSpec env c := by
  cases env with
  | nil => exact absurd rfl hne
  | cons p rest =>
    obtain ⟨flat, h1, h2, h3⟩ := optSum_concat c k hk (p :: rest) h
    have hflat_ne : flat ≠ [] := by
      intro hh
      rw [hh] at h2
      simp only [List.length_nil, List.length_cons] at h2
      rcases Nat.mul_eq_zero.mp h2.symm with hz | hz
      · exact Nat.succ_ne_zero _ hz
      · exact hk hz
    show (optSum ((p :: rest).map fun q => meanOfSite q.2 c)).map
        (fun x => x / (((p :: rest).length : Nat) : Rat)) = _
    rw [h3]
    unfold envFieldAvgSpec
    rw [h1]
    rw [show (some flat).bind seriesMean = seriesMean flat from rfl]
    rw [seriesMean_of_ne_nil hflat_ne, h2]
    simp only [Option.map_some']
    congr 1
    rw [div_div]
    congr 1
    push_cast
    ring

/-- Witness for C4 amended on a balanced mapping with two records per
site. -/
theorem C4_witness :
    ((2 : Nat) ≠ 0) ∧ envEqual ≠ [] ∧
    (∀ p ∈ envEqual, ∃ vs, colVals p.2 temperatureCol = some vs ∧ vs.length = 2) ∧
    envFieldAvg envEqual temperatureCol = envFieldAvgSpec envEqual temperatureCol := by
  have hvals : ∀ p ∈ envEqual, ∃ vs, colVals p.2 temperatureCol = some vs ∧ vs.length = 2 := by
    intro p hp
    have hp2 : p = (songdo, tTable [1, 3]) ∨ p = (haneul, tTable [2, 6]) := by
      simpa [envEqual] using hp
    rcases hp2 with rfl | rfl
    · exact ⟨[1, 3], by decide, by decide⟩
    · exact ⟨[2, 6], by decide, by decide⟩
  exact ⟨by decide, by decide, hvals,
    C4_amended envEqual temperatureCol 2 (by decide) (by decide) hvals⟩

/-- C6.  When no file of the directory carries the growth-document name,
the growth loader reports exactly one fatal not-found error and returns
the empty result; and the environment loader is a function of the
environment candidates only, so adding or removing growth documents (whose
names never match the environment glob) cannot change its output. -/
theorem C6_growth_missing (L : List Entry)
    (hno : ∀ e ∈ L, growthGlobSfx.isSuffixOf e.name = false) :
    load_growth_data (some L) = (none, [ErrMsg.growthFileNotFound]) ∧
    ∀ M : List Entry,
      load_environment_data
        (some (M.filter (fun e => !(growthGlobSfx.isSuffixOf e.name)))) =
      load_environment_data (some M) := by
  constructor
  · have hempty : L.filter (fun e => growthGlobSfx.isSuffixOf e.name) = [] := by
      rw [List.filter_eq_nil_iff]
      intro e he
      rw [hno e he]
      exact Bool.false_ne_true
    unfold load_growth_data
    simp only [show (some L).getD [] = L from rfl, hempty]
  · intro M
    have hfilters :
        (M.filter (fun e => !(growthGlobSfx.isSuffixOf e.name))).filter
          (fun e => envGlobSfx.isSuffixOf e.name) =
        M.filter (fun e => envGlobSfx.isSuffixOf e.name) := by
      rw [List.filter_filter]
      apply List.filter_congr
      intro e _
      cases henv : envGlobSfx.isSuffixOf e.name with
      | false => simp
      | true => simp [env_growth_sfx_disjoint e.name henv]
    unfold load_environment_data
    simp only [hfilters]

/-- Witness for C6 in a directory holding only an environment file. -/
theorem C6_witness :
    (∀ e ∈ dirHaneulOnly, growthGlobSfx.isSuffixOf e.name = false) ∧
    load_growth_data (some dirHaneulOnly) = (none, [ErrMsg.growthFileNotFound]) :=
  ⟨by decide, (C6_growth_missing dirHaneulOnly (by decide)).1⟩

/-- C7 counterexample.  The claim quantifies over every collection with at
least one site.  On the collection holding only 송도고, the dict
comprehension of lines 153-154 indexes the missing schools and raises, so
no optimal site is produced at all (none models the KeyError). -/
theorem C7_counterexample :
    dictLookup songdo gSingle = some (gTable 2) ∧
    optimal_school gSingle = none := by decide

/-- C7 amended.  On a collection in which every configured site is present
and every fresh-weight mean is a defined number, optimal-site selection
returns a site of maximal mean fresh weight, and every site listed before
it in SCHOOL_EC order has a strictly smaller mean: the first maximal site
in the configured enumeration wins. -/
theorem C7_amended (g : List (Str × Table)) (w : Str → Rat)
    (h : ∀ s ∈ SCHOOLS, ∃ t, dictLookup s g = some t ∧
      colMean t freshWeightCol = some (some (w s))) :
    ∃ s l1 l2, optimal_school g = some s ∧ SCHOOLS = l1 ++ s :: l2 ∧
      (∀ s2 ∈ l1, w s2 < w s) ∧ ∀ s2 ∈ SCHOOLS, w s2 ≤ w s := by
  have havg : avg_weights g = some (SCHOOLS.map (fun s => (s, some (w s)))) :=
    avgWeightsLoop_map g w SCHOOLS h
  obtain ⟨s, hrun, l1, l2, hdec, hlt, hle⟩ :=
    pyMaxGo_map w [haneul, arago, dongsan] songdo
  refine ⟨s, l1, l2, ?_, hdec, hlt, hle⟩
  unfold optimal_school
  rw [havg]
  show some (pyMaxGo songdo (some (w songdo))
    ([haneul, arago, dongsan].map (fun x => (x, some (w x))))).1 = some s
  rw [hrun]

/-- Witness for C7 amended on the spec's worked example: 하늘고 (EC 2.0)
wins with mean fresh weight 3.4 grams. -/
theorem C7_witness :
    (∀ s ∈ SCHOOLS, ∃ t, dictLookup s gFull = some t ∧
      colMean t freshWeightCol = some (some (wFull s))) ∧
    ∃ s l1 l2, optimal_school gFull = some s ∧ SCHOOLS = l1 ++ s :: l2 ∧
      (∀ s2 ∈ l1, wFull s2 < wFull s) ∧ ∀ s2 ∈ SCHOOLS, wFull s2 ≤ wFull s := by
  have hh : ∀ s ∈ SCHOOLS, ∃ t, dictLookup s gFull = some t ∧
      colMean t freshWeightCol = some (some (wFull s)) := by
    intro s hs
    have hs2 : s = songdo ∨ s = haneul ∨ s = arago ∨ s = dongsan := by
      simpa [SCHOOLS, SCHOOL_EC] using hs
    rcases hs2 with rfl | rfl | rfl | rfl
    · exact ⟨gTable (21 / 10), rfl,
        by rw [show wFull songdo = 21 / 10 from rfl]; exact colMean_gTable _⟩
    · exact ⟨gTable (17 / 5), rfl,
        by rw [show wFull haneul = 17 / 5 from rfl]; exact colMean_gTable _⟩
    · exact ⟨gTable (14 / 5), rfl,
        by rw [show wFull arago = 14 / 5 from rfl]; exact colMean_gTable _⟩
    · exact ⟨gTable (19 / 10), rfl,
        by rw [show wFull dongsan = 19 / 10 from rfl]; exact colMean_gTable _⟩
  exact ⟨hh, C7_amended gFull wFull hh⟩

/-- C8 counterexample.  The claim says every stored record carries the
site identifier of its mapping key.  The loader stores the parsed table
unchanged: the records of the 하늘고 table are pure sensor numbers and no
cell holds the school name. -/
theorem C8_counterexample :
    envLookup (some dirHaneulOnly) haneul = some (tTable [4, 4, 4]) ∧
    tableTagged haneul (tTable [4, 4, 4]) = false := by decide

/-- C8 amended.  Neither loader tags records: each table present in a
result mapping is byte-for-byte the parse of some candidate file (for
environment data) or of some sheet of the growth document (for growth
data); the association with a site lives only in the mapping key. -/
theorem C8_amended :
    (∀ (L : List Entry) (s : Str) (t : Table),
      envLookup (some L) s = some t → ∃ e ∈ L, readCsv e = some t) ∧
    (∀ (L : List Entry) (f : Entry) (fs : List Entry)
        (sheets : List (Str × Option Table)) (s : Str) (t : Table),
      L.filter (fun e => growthGlobSfx.isSuffixOf e.name) = f :: fs →
      f.data = .xlsx sheets →
      growthLookup (some L) s = some t → ∃ p ∈ sheets, p.2 = some t) := by
  constructor
  · intro L s t h
    rw [envLookup_char] at h
    obtain ⟨e, he, hr⟩ := lastEnvAssign_mem h
    exact ⟨e, List.mem_of_mem_filter he, hr⟩
  · intro L f fs sheets s t hfilter hdata h
    unfold growthLookup at h
    rw [load_growth_eq L f fs sheets hfilter hdata] at h
    cases hloop : sheetsLoop sheets [] with
    | none => simp [hloop] at h
    | some m =>
      simp only [hloop] at h
      by_cases hm : m.isEmpty
      · simp [hm] at h
      · simp only [hm, Bool.false_eq_true, if_false] at h
        rcases sheetsLoop_mem sheets [] m s t hloop h with ⟨p, hp, hps⟩ | habs
        · exact ⟨p, hp, hps⟩
        · simp [dictLookup] at habs

/-- Witness for C8 amended at concrete directories for both loaders. -/
theorem C8_witness :
    (∃ e ∈ dirHaneulOnly, readCsv e = some (tTable [4, 4, 4])) ∧
    ∃ p ∈ [(songdo, some (gTable 2)), (songdo ++ [32, 50], some (gTable 5))],
      p.2 = some (gTable 5) :=
  ⟨C8_amended.1 dirHaneulOnly haneul (tTable [4, 4, 4]) (by decide),
   C8_amended.2 dirTwoSheets
     ⟨growthGlobSfx, .xlsx [(songdo, some (gTable 2)), (songdo ++ [32, 50], some (gTable 5))]⟩
     [] [(songdo, some (gTable 2)), (songdo ++ [32, 50], some (gTable 5))]
     songdo (gTable 5) (by decide) rfl (by decide)⟩

/-- C9.  A per-site mean over a table with a present column and zero
records evaluates to the defined outcome NaN (the inner none): pandas
returns NaN on an empty series and the computation raises no division
error. -/
theorem C9_empty_mean (t : Table) (c : Str) (hrows : t.rows = []) (hc : c ∈ t.cols) :
    colMean t c = some none := by
  obtain ⟨i, hi⟩ := findIdx_of_mem hc
  unfold colMean colVals
  rw [hi, hrows]
  rfl

/-- Witness for C9 on the growth table with a header but no record. -/
theorem C9_witness :
    emptyGTable.rows = [] ∧ freshWeightCol ∈ emptyGTable.cols ∧
    colMean emptyGTable freshWeightCol = some none :=
  ⟨rfl, by decide, C9_empty_mean emptyGTable freshWeightCol rfl (by decide)⟩

/-- C10.  Each sheet is associated with at most one site, namely the first
school in SCHOOL_EC order whose name matches the sheet name under dual
normalization (equivalently: it matches, and every school listed before it
does not); and on a document whose sheets all parse, each site's stored
table is that of the last sheet in document order associated with it,
earlier matches being silently overwritten. -/
theorem C10_sheet_assoc (L : List Entry) (f : Entry) (fs : List Entry)
    (sheets : List (Str × Option Table))
    (hfilter : L.filter (fun e => growthGlobSfx.isSuffixOf e.name) = f :: fs)
    (hdata : f.data = .xlsx sheets)
    (hok : ∀ p ∈ sheets, p.2.isSome) :
    (∀ (name s : Str), sheetSchool name = some s ↔
      nameMatches s name = true ∧ ∃ l1 l2, SCHOOLS = l1 ++ s :: l2 ∧
        ∀ s2 ∈ l1, nameMatches s2 name = false) ∧
    ∀ s : Str, growthLookup (some L) s =
      match lastMatchingSheet s sheets with
      | some p => p.2
      | none => none := by
  constructor
  · intro name s
    unfold sheetSchool
    rw [List.find?_eq_some]
    constructor
    · rintro ⟨hps, as, bs, hdecomp, hall⟩
      exact ⟨hps, as, bs, hdecomp, fun s2 hs2 => by simpa using hall s2 hs2⟩
    · rintro ⟨hps, as, bs, hdecomp, hall⟩
      exact ⟨hps, as, bs, hdecomp, fun s2 hs2 => by simpa using hall s2 hs2⟩
  · intro s
    unfold growthLookup
    rw [load_growth_eq L f fs sheets hfilter hdata]
    obtain ⟨m2, hm2, hlook⟩ := sheetsLoop_ok sheets [] hok
    simp only [hm2]
    by_cases hm : m2.isEmpty
    · have hnil := List.isEmpty_iff.mp hm
      simp only [hm, if_true]
      cases hlast : lastMatchingSheet s sheets with
      | none => rfl
      | some p =>
        have hp := lastMatchingSheet_mem hlast
        have := hlook s
        rw [hlast, hnil] at this
        simp only [dictLookup] at this
        have hsome := hok p hp
        rw [← this] at hsome
        simp at hsome
    · simp only [hm, Bool.false_eq_true, if_false]
      rw [hlook s]
      cases hlast : lastMatchingSheet s sheets with
      | none => rfl
      | some p => rfl

/-- Witness for C10 on a document with two sheets both associated to
송도고: the stored table is the second sheet's. -/
theorem C10_witness :
    (∀ p ∈ [(songdo, some (gTable 2)), (songdo ++ [32, 50], some (gTable 5))], p.2.isSome) ∧
    growthLookup (some dirTwoSheets) songdo =
      match lastMatchingSheet songdo
          [(songdo, some (gTable 2)), (songdo ++ [32, 50], some (gTable 5))] with
      | some p => p.2
      | none => none :=
  ⟨by decide,
   (C10_sheet_assoc dirTwoSheets
     ⟨growthGlobSfx, .xlsx [(songdo, some (gTable 2)), (songdo ++ [32, 50], some (gTable 5))]⟩
     [] [(songdo, some (gTable 2)), (songdo ++ [32, 50], some (gTable 5))]
     (by decide) rfl (by decide)).2 songdo⟩
